import Mathlib

/-!
Shallow embedding of the firmware in `src/Projet_IOT.ino` (ESP32 serial
command loop with WiFi scanning), used to verify the repository's
specification.

Serial output is modelled as a list of lines: each `Serial.println(x)` call
contributes the line `x`, and each `Serial.printf("...\n", ...)` row
contributes one formatted line (line terminators are abstracted away).

The WiFi subsystem is modelled by `ScanEnv`: the return value `n` of
`WiFi.scanNetworks(false, true)` (an `Int`, negative on internal failure),
the per-index accessors `WiFi.SSID(i)`, `WiFi.BSSIDstr(i)`, `WiFi.RSSI(i)`,
`WiFi.channel(i)`, and the value `ts` returned by `millis()` right after the
scan completes.

The serial input side is modelled at two levels: `processLine` takes one
already-read line (the common case, every byte of a line arriving
promptly), while `readStringUntilAux`/`pollOnce` model the byte-level
behaviour of `Serial.readStringUntil('\n')` with its default 1000 ms
`Stream` timeout over a list of time-stamped input bytes.
-/

namespace ProjetWifi

/-- Whitespace predicate of C `isspace`, which Arduino `String::trim` uses:
space, tab, newline, vertical tab, form feed, carriage return. -/
def isArduinoSpace (c : Char) : Bool :=
  c == ' ' || c == '\t' || c == '\n' || c == Char.ofNat 11 || c == Char.ofNat 12 || c == '\r'

/-- Arduino `String::trim` on the underlying character list: remove the
leading and the trailing run of `isspace` characters. -/
def trimList (l : List Char) : List Char :=
  List.rdropWhile isArduinoSpace (l.dropWhile isArduinoSpace)

/-- Models `s.trim()` (used on the command line and on the location). -/
def trim (s : String) : String := ⟨trimList s.data⟩

/-- Models `cmd.startsWith("LOC ")`: the first four characters are `LOC `. -/
def startsWithLOC (s : String) : Bool := decide (s.data.take 4 = "LOC ".data)

/-- Models `cmd.substring(4)`. -/
def substring4 (s : String) : String := ⟨s.data.drop 4⟩

/-- The WiFi subsystem as seen by one `scanWiFi()` call: result of
`WiFi.scanNetworks(false, true)` (`n`, negative on failure), the per-index
accessors, and the `millis()` value captured after the scan. -/
structure ScanEnv where
  n : Int
  ssid : Nat → String
  bssid : Nat → String
  rssi : Nat → Int
  channel : Nat → Int
  ts : Nat

/-- The fixed CSV header line printed by `scanWiFi`. -/
def header : String := "timestamp_ms,location,ssid,bssid,rssi,channel"

/-- One data row, as produced by
`Serial.printf("%lu,%s,%s,%s,%d,%d\n", ts, location, ssid, bssid, rssi, channel)`. -/
def formatRow (ts : Nat) (loc ssid bssid : String) (rssi channel : Int) : String :=
  toString ts ++ "," ++ loc ++ "," ++ ssid ++ "," ++ bssid ++ ","
    ++ toString rssi ++ "," ++ toString channel

/-- Models `scanWiFi()` (lines 37-57 of the sketch): start marker, header,
one row per index `0 ≤ i < n` in scan order, end marker. A negative `n`
(scan failure) makes the `for` loop run zero times, exactly as
`Int.toNat` sends negatives to `0`. -/
def scanWiFi (env : ScanEnv) (loc : String) : List String :=
  ["#DATA_START", header]
    ++ (List.range env.n.toNat).map
        (fun i => formatRow env.ts loc (env.ssid i) (env.bssid i) (env.rssi i) (env.channel i))
    ++ ["#DATA_END"]

/-- Models one pass of `loop()` once a line `raw` has been read (lines
23-35): trim it, handle the `LOC ` prefix (store the trimmed remainder,
acknowledge), then handle `SCAN`. Returns the new location and the list of
output lines. The two `if`s are sequential, as in the source. -/
def processLine (loc raw : String) (env : ScanEnv) : String × List String :=
  let cmd := trim raw
  let locAndAck : String × List String :=
    if startsWithLOC cmd then (trim (substring4 cmd), ["[OK] LOC SET"]) else (loc, [])
  let scanOut : List String := if cmd = "SCAN" then scanWiFi env locAndAck.1 else []
  (locAndAck.1, locAndAck.2 ++ scanOut)

/-- Repeated `loop()` passes over a sequence of complete input lines, each
paired with the `ScanEnv` in effect when it is processed. Returns the final
location and the concatenated serial output. -/
def runLines : String → List (String × ScanEnv) → String × List String
  | loc, [] => (loc, [])
  | loc, (raw, env) :: rest =>
    let step := processLine loc raw env
    let next := runLines step.1 rest
    (next.1, step.2 ++ next.2)

/-- The per-line output decomposition: the output block of each command, in
arrival order, with the location threaded through. -/
def perLineOutputs : String → List (String × ScanEnv) → List (List String)
  | _, [] => []
  | loc, (raw, env) :: rest =>
    (processLine loc raw env).2 :: perLineOutputs (processLine loc raw env).1 rest

/-- Initial value of the global `location` (line 6 of the sketch). -/
def initialLocation : String := "Non_Definie"

/-- Serial output of `setup()` (line 11): the startup banner. -/
def setupOutput : List String := ["ESP32 READY"]

/-- Whole-process serial output: `setup()` then the command loop. -/
def deviceRun (lines : List (String × ScanEnv)) : List String :=
  setupOutput ++ (runLines initialLocation lines).2

/-- The data rows of a scan report: everything strictly between the two-line
preamble (start marker, header) and the final end marker. -/
def dataRows (out : List String) : List String := (out.drop 2).dropLast

/-- Number of comma-separated fields of a CSV line (one more than the number
of comma characters, which is what splitting on commas yields). -/
def csvFieldCount (s : String) : Nat := s.data.count ',' + 1

/-- The outbound messages defined by the protocol: the LOC acknowledgment
and the four kinds of scan-report lines. -/
def isProtocolLine (s : String) : Prop :=
  s = "[OK] LOC SET" ∨ s = "#DATA_START" ∨ s = header ∨ s = "#DATA_END" ∨
    ∃ ts loc ssid bssid rssi channel, s = formatRow ts loc ssid bssid rssi channel

/-- Concrete environment: two access points found. -/
def envTwo : ScanEnv where
  n := 2
  ssid := fun i => if i = 0 then "Net1" else "Net2"
  bssid := fun i => if i = 0 then "aa:bb:cc:dd:ee:ff" else "11:22:33:44:55:66"
  rssi := fun i => if i = 0 then -55 else -70
  channel := fun i => if i = 0 then 6 else 11
  ts := 1234

/-- Concrete environment: the scan capability reports the internal failure
value `-2` (`WIFI_SCAN_FAILED`). -/
def envFail : ScanEnv where
  n := -2
  ssid := fun _ => ""
  bssid := fun _ => ""
  rssi := fun _ => 0
  channel := fun _ => 0
  ts := 777

/-- Default Arduino `Stream` timeout in milliseconds (`Stream::_timeout`,
never changed by the sketch). -/
def serialTimeout : Nat := 1000

/-- Models `Serial.readStringUntil('\n')` (Arduino `Stream`): characters
are fetched one by one by `timedRead`, which waits at most `serialTimeout`
ms counted from the previous fetch; a byte arriving inside the window is
consumed at its arrival time, the terminator is consumed but not returned,
and a timeout ends the call with whatever has accumulated. The serial
input is a list of (arrival time, byte) events in arrival order; the
result is (accumulated characters, unconsumed events, return time). -/
def readStringUntilAux :
    List Char → Nat → List (Nat × Char) → List Char × List (Nat × Char) × Nat
  | acc, now, [] => (acc, [], now + serialTimeout)
  | acc, now, (t, c) :: rest =>
    if t ≤ now + serialTimeout then
      if c = '\n' then (acc, rest, max now t)
      else readStringUntilAux (acc ++ [c]) (max now t) rest
    else (acc, (t, c) :: rest, now + serialTimeout)

/-- Entry point of the modelled `readStringUntil`, with an empty
accumulator. -/
def readStringUntilNL (now : Nat) (events : List (Nat × Char)) :
    List Char × List (Nat × Char) × Nat :=
  readStringUntilAux [] now events

/-- Models `Serial.available()`: the next unconsumed byte has arrived. -/
def available (now : Nat) (events : List (Nat × Char)) : Bool :=
  match events with
  | [] => false
  | (t, _) :: _ => t ≤ now

/-- Byte-level device state: current location, current time, and the
not-yet-consumed serial input events. -/
structure DeviceState where
  loc : String
  now : Nat
  events : List (Nat × Char)
deriving DecidableEq

/-- One `loop()` pass at byte level (lines 20-35 of the sketch): return at
once when no byte is available, otherwise read one line with
`readStringUntil` and process it. -/
def pollOnce (env : ScanEnv) (st : DeviceState) : DeviceState × List String :=
  if available st.now st.events then
    let r := readStringUntilNL st.now st.events
    let p := processLine st.loc ⟨r.1⟩ env
    (⟨p.1, r.2.2, r.2.1⟩, p.2)
  else (st, [])

/-- Promptness of a byte sequence: each byte arrives within
`serialTimeout` of the previous consumption time. -/
def chainOk : Nat → List (Nat × Char) → Bool
  | _, [] => true
  | now, (t, _) :: rest => decide (t ≤ now + serialTimeout) && chainOk (max now t) rest

/-- Processing the line `SCAN` runs the scan engine on the current location
and leaves the location unchanged. -/
theorem processLine_scan_eq (loc : String) (env : ScanEnv) :
    processLine loc "SCAN" env = (loc, scanWiFi env loc) := rfl

/-- C1: Sending `SCAN` produces exactly the start marker line `#DATA_START`,
then the header line exactly once, then one CSV data row per discovered
access point in the order reported (each carrying that access point's ssid,
bssid text form, rssi and channel), then the end marker line `#DATA_END`;
with zero access points the output is exactly the three framing lines. -/
theorem scan_output_exact_framing (env : ScanEnv) (loc : String) (_h : 0 ≤ env.n) :
    processLine loc "SCAN" env =
      (loc, ["#DATA_START", header]
        ++ (List.range env.n.toNat).map
            (fun i => formatRow env.ts loc (env.ssid i) (env.bssid i) (env.rssi i) (env.channel i))
        ++ ["#DATA_END"]) := processLine_scan_eq loc env

/-- Witness for C1: two access points give exactly six lines, rows in scan
order. -/
theorem scan_output_exact_framing_witness :
    (0 : Int) ≤ envTwo.n ∧
    processLine "Tower B" "SCAN" envTwo =
      ("Tower B",
        ["#DATA_START", header,
         "1234,Tower B,Net1,aa:bb:cc:dd:ee:ff,-55,6",
         "1234,Tower B,Net2,11:22:33:44:55:66,-70,11",
         "#DATA_END"]) := by
  refine ⟨by decide, ?_⟩
  rw [scan_output_exact_framing envTwo "Tower B" (by decide)]
  decide

/-- The data rows of a scan report are exactly the formatted rows. -/
theorem dataRows_scanWiFi (env : ScanEnv) (loc : String) :
    dataRows (scanWiFi env loc)
      = (List.range env.n.toNat).map
          (fun i => formatRow env.ts loc (env.ssid i) (env.bssid i) (env.rssi i) (env.channel i)) := by
  simp [dataRows, scanWiFi]

/-- C3: within one SCAN response, every data row is built from the one
timestamp value captured when the scan completed (`env.ts`) and the one
location value in effect (`loc`), identical across all rows of the
response. -/
theorem scan_rows_share_stamp (env : ScanEnv) (loc : String) :
    ∀ r ∈ dataRows (processLine loc "SCAN" env).2,
      ∃ i < env.n.toNat,
        r = formatRow env.ts loc (env.ssid i) (env.bssid i) (env.rssi i) (env.channel i) := by
  intro r hr
  rw [processLine_scan_eq] at hr
  rw [dataRows_scanWiFi] at hr
  obtain ⟨i, hi, hw⟩ := List.mem_map.mp hr
  exact ⟨i, List.mem_range.mp hi, hw.symm⟩

/-- Witness for C3: the first row of the two-access-point response shares
the captured stamp. -/
theorem scan_rows_share_stamp_witness :
    "1234,Tower B,Net1,aa:bb:cc:dd:ee:ff,-55,6"
        ∈ dataRows (processLine "Tower B" "SCAN" envTwo).2 ∧
    ∃ i < envTwo.n.toNat,
      "1234,Tower B,Net1,aa:bb:cc:dd:ee:ff,-55,6"
        = formatRow envTwo.ts "Tower B" (envTwo.ssid i) (envTwo.bssid i)
            (envTwo.rssi i) (envTwo.channel i) := by
  have hm : "1234,Tower B,Net1,aa:bb:cc:dd:ee:ff,-55,6"
      ∈ dataRows (processLine "Tower B" "SCAN" envTwo).2 := by decide
  exact ⟨hm, scan_rows_share_stamp envTwo "Tower B" _ hm⟩

/-- C4: a trimmed line that neither starts with `LOC ` nor equals `SCAN`
(case variants, bare `LOC`, arbitrary text, the empty line) produces no
output and leaves the location unchanged. -/
theorem unrecognized_line_silent (env : ScanEnv) (loc raw : String)
    (h1 : startsWithLOC (trim raw) = false) (h2 : trim raw ≠ "SCAN") :
    processLine loc raw env = (loc, []) := by
  simp [processLine, h1, h2]

/-- Witness for C4: the line `ping` is silently dropped. -/
theorem unrecognized_line_silent_witness :
    startsWithLOC (trim "ping") = false ∧ trim "ping" ≠ "SCAN" ∧
    processLine "Tower B" "ping" envTwo = ("Tower B", []) :=
  ⟨by decide, by decide,
    unrecognized_line_silent envTwo "Tower B" "ping" (by decide) (by decide)⟩

/-- C5: only a line whose trimmed form starts with `LOC ` can change the
location: every other line (`SCAN` included) leaves it exactly as it was. -/
theorem location_unchanged_without_loc_prefix (env : ScanEnv) (loc raw : String)
    (h : startsWithLOC (trim raw) = false) :
    (processLine loc raw env).1 = loc := by
  simp [processLine, h]

/-- Witness for C5: processing `SCAN` leaves the location unchanged. -/
theorem location_unchanged_without_loc_prefix_witness :
    startsWithLOC (trim "SCAN") = false ∧
    (processLine "Tower B" "SCAN" envTwo).1 = "Tower B" :=
  ⟨by decide, location_unchanged_without_loc_prefix envTwo "Tower B" "SCAN" (by decide)⟩

/-- C6: when the scan capability reports a failure value (negative count),
the engine still emits exactly the start marker, the header and the end
marker, with zero data rows and no retry. -/
theorem scan_failure_empty_report (env : ScanEnv) (loc : String) (h : env.n < 0) :
    processLine loc "SCAN" env = (loc, ["#DATA_START", header, "#DATA_END"]) := by
  rw [processLine_scan_eq]
  have hn : env.n.toNat = 0 := Int.toNat_of_nonpos (le_of_lt h)
  simp [scanWiFi, hn]

/-- Witness for C6: the failure value `-2` yields the three framing lines. -/
theorem scan_failure_empty_report_witness :
    envFail.n < 0 ∧
    processLine "Tower B" "SCAN" envFail
      = ("Tower B", ["#DATA_START", header, "#DATA_END"]) :=
  ⟨by decide, scan_failure_empty_report envFail "Tower B" (by decide)⟩

/-- C9: processing is strictly sequential: over any sequence of input
lines, the total serial output equals the concatenation of each command's
complete output block in arrival order, so no block is ever interleaved
with another. -/
theorem sequential_output_concatenation (loc : String) (lines : List (String × ScanEnv)) :
    (runLines loc lines).2 = (perLineOutputs loc lines).flatten := by
  induction lines generalizing loc with
  | nil => rfl
  | cons hd tl ih =>
    obtain ⟨raw, env⟩ := hd
    simp [runLines, perLineOutputs, ih]

/-- C10: the line `LOC a,b` is accepted and stores a location containing a
comma; the next SCAN data row then has seven comma-separated fields while
the header line promises six — fields are embedded verbatim, unescaped. -/
theorem comma_location_breaks_csv :
    processLine "Non_Definie" "LOC a,b" envTwo = ("a,b", ["[OK] LOC SET"]) ∧
    processLine "a,b" "SCAN" envTwo =
      ("a,b",
        ["#DATA_START", header,
         "1234,a,b,Net1,aa:bb:cc:dd:ee:ff,-55,6",
         "1234,a,b,Net2,11:22:33:44:55:66,-70,11",
         "#DATA_END"]) ∧
    csvFieldCount "1234,a,b,Net1,aa:bb:cc:dd:ee:ff,-55,6" = 7 ∧
    csvFieldCount header = 6 :=
  ⟨by decide, by decide, by decide, by decide⟩

/-- Every formatted data row contains a comma character. -/
theorem comma_mem_formatRow (ts : Nat) (loc ssid bssid : String) (rssi channel : Int) :
    ',' ∈ (formatRow ts loc ssid bssid rssi channel).data := by
  simp [formatRow, String.data_append, List.mem_append,
    show ",".data = [','] from rfl]

/-- The startup banner is none of the protocol messages. -/
theorem banner_not_protocol : ¬ isProtocolLine "ESP32 READY" := by
  intro h
  rcases h with h | h | h | h | ⟨ts, loc, ssid, bssid, rssi, channel, h⟩
  · exact absurd h (by decide)
  · exact absurd h (by decide)
  · exact absurd h (by decide)
  · exact absurd h (by decide)
  · have hc := comma_mem_formatRow ts loc ssid bssid rssi channel
    rw [← h] at hc
    exact absurd hc (by decide)

/-- C7 counterexample: before any command arrives, the device has already
written the startup banner `ESP32 READY` (line 11 of the sketch), which is
not one of the protocol messages. -/
theorem startup_banner_counterexample :
    deviceRun [] = ["ESP32 READY"] ∧ ¬ isProtocolLine "ESP32 READY" :=
  ⟨rfl, banner_not_protocol⟩

/-- Every line of a scan report is a protocol message. -/
theorem scanWiFi_protocol (env : ScanEnv) (loc : String) :
    ∀ s ∈ scanWiFi env loc, isProtocolLine s := by
  intro s hs
  simp [scanWiFi] at hs
  rcases hs with h | h | ⟨i, _, h⟩ | h
  · exact Or.inr (Or.inl h)
  · exact Or.inr (Or.inr (Or.inl h))
  · exact Or.inr (Or.inr (Or.inr (Or.inr
      ⟨env.ts, loc, env.ssid i, env.bssid i, env.rssi i, env.channel i, h.symm⟩)))
  · exact Or.inr (Or.inr (Or.inr (Or.inl h)))

/-- Every line emitted while processing one command line is a protocol
message. -/
theorem processLine_protocol (loc raw : String) (env : ScanEnv) :
    ∀ s ∈ (processLine loc raw env).2, isProtocolLine s := by
  intro s hs
  by_cases hc : trim raw = "SCAN"
  · rw [show (processLine loc raw env).2 = scanWiFi env loc by
      simp [processLine, hc, show startsWithLOC "SCAN" = false from by decide]] at hs
    exact scanWiFi_protocol env loc s hs
  · by_cases hb : startsWithLOC (trim raw)
    · rw [show (processLine loc raw env).2 = ["[OK] LOC SET"] by
        simp [processLine, hb, hc]] at hs
      simp at hs
      exact Or.inl hs
    · rw [show (processLine loc raw env).2 = [] by
        simp [processLine, hb, hc]] at hs
      simp at hs

/-- Every line the command loop ever writes is a protocol message. -/
theorem runLines_protocol (lines : List (String × ScanEnv)) :
    ∀ loc, ∀ s ∈ (runLines loc lines).2, isProtocolLine s := by
  induction lines with
  | nil => intro loc s hs; simp [runLines] at hs
  | cons hd tl ih =>
    intro loc s hs
    obtain ⟨raw, env⟩ := hd
    simp only [runLines] at hs
    rcases List.mem_append.mp hs with h | h
    · exact processLine_protocol _ _ _ s h
    · exact ih _ s h

/-- C7 amended: besides the protocol messages the device writes exactly
one other line, the startup banner `ESP32 READY`, emitted once at startup
as its very first output; every line written after it is a protocol
message (LOC acknowledgment, start marker, header, data row, end marker). -/
theorem output_banner_then_protocol_only (lines : List (String × ScanEnv)) :
    deviceRun lines = "ESP32 READY" :: (runLines initialLocation lines).2 ∧
    ∀ s ∈ (runLines initialLocation lines).2, isProtocolLine s :=
  ⟨rfl, runLines_protocol lines initialLocation⟩

/-- Witness for the amended C7: one failed scan produces the banner then
three protocol lines. -/
theorem output_banner_then_protocol_only_witness :
    deviceRun [("SCAN", envFail)]
        = "ESP32 READY" :: (runLines initialLocation [("SCAN", envFail)]).2 ∧
    "#DATA_START" ∈ (runLines initialLocation [("SCAN", envFail)]).2 ∧
    isProtocolLine "#DATA_START" := by
  obtain ⟨h1, h2⟩ := output_banner_then_protocol_only [("SCAN", envFail)]
  exact ⟨h1, by decide, h2 "#DATA_START" (by decide)⟩

/-- Dropping from the left past a block whose elements all satisfy `p`
continues into the second block. -/
theorem dropWhile_append_all {α : Type*} {p : α → Bool} {l1 : List α} (l2 : List α)
    (h : ∀ x ∈ l1, p x) : (l1 ++ l2).dropWhile p = l2.dropWhile p := by
  induction l1 with
  | nil => rfl
  | cons a t ih =>
    have ha : p a := h a (List.mem_cons_self a t)
    simp only [List.cons_append, List.dropWhile_cons, ha, if_true]
    exact ih (fun x hx => h x (List.mem_cons_of_mem _ hx))

/-- Dropping from the left stops inside a first block that survives it. -/
theorem dropWhile_append_pos {α : Type*} {p : α → Bool} {l1 : List α} (l2 : List α)
    (h : l1.dropWhile p ≠ []) : (l1 ++ l2).dropWhile p = l1.dropWhile p ++ l2 := by
  induction l1 with
  | nil => exact absurd rfl h
  | cons a t ih =>
    by_cases ha : p a
    · have h' : t.dropWhile p ≠ [] := by
        intro hnil
        exact h (by simp [List.dropWhile_cons, ha, hnil])
      simp only [List.cons_append, List.dropWhile_cons, ha, if_true]
      exact ih h'
    · simp [List.dropWhile_cons, ha]

/-- Right-dropping a cons whose tail satisfies `p` everywhere. -/
theorem rdropWhile_cons_all {α : Type*} {p : α → Bool} {t : List α}
    (h : ∀ x ∈ t, p x) (a : α) :
    List.rdropWhile p (a :: t) = if p a then [] else [a] := by
  unfold List.rdropWhile
  rw [List.reverse_cons, dropWhile_append_all _ (fun x hx => h x (List.mem_reverse.mp hx))]
  by_cases ha : p a <;> simp [List.dropWhile_cons, ha]

/-- Right-dropping a cons whose tail has a failing element keeps the head. -/
theorem rdropWhile_cons_ex {α : Type*} {p : α → Bool} {t : List α}
    (h : ¬ ∀ x ∈ t, p x) (a : α) :
    List.rdropWhile p (a :: t) = a :: List.rdropWhile p t := by
  have hne : t.reverse.dropWhile p ≠ [] := by
    intro hnil
    exact h (fun x hx => List.dropWhile_eq_nil_iff.mp hnil x (List.mem_reverse.mpr hx))
  unfold List.rdropWhile
  rw [List.reverse_cons, dropWhile_append_pos _ hne, List.reverse_append]
  simp

/-- Left-dropping and right-dropping a run of `p` commute. -/
theorem dropWhile_rdropWhile_comm {α : Type*} (p : α → Bool) (l : List α) :
    (List.rdropWhile p l).dropWhile p = List.rdropWhile p (l.dropWhile p) := by
  induction l with
  | nil => simp [List.rdropWhile]
  | cons a t ih =>
    by_cases hall : ∀ x ∈ t, p x
    · have h2 : t.dropWhile p = [] := List.dropWhile_eq_nil_iff.mpr hall
      rw [rdropWhile_cons_all hall]
      by_cases ha : p a
      · simp only [if_pos ha, List.dropWhile_nil, List.dropWhile_cons, ha, if_true, h2]
        simp [List.rdropWhile]
      · simp only [if_neg ha, List.dropWhile_cons, ha, if_false, Bool.false_eq_true]
        rw [rdropWhile_cons_all hall]
        simp [ha, List.dropWhile_cons]
    · rw [rdropWhile_cons_ex hall]
      by_cases ha : p a
      · simp only [List.dropWhile_cons, ha, if_true]
        exact ih
      · simp only [List.dropWhile_cons, ha, if_false, Bool.false_eq_true]
        exact (rdropWhile_cons_ex hall a).symm

/-- Trimming after a right-drop is the same as trimming the original. -/
theorem trimList_rdropWhile (u : List Char) :
    trimList (List.rdropWhile isArduinoSpace u) = trimList u := by
  unfold trimList
  rw [dropWhile_rdropWhile_comm, List.rdropWhile_idempotent]

/-- A list trims to nothing exactly when it is all whitespace. -/
theorem trimList_eq_nil_iff (u : List Char) :
    trimList u = [] ↔ ∀ c ∈ u, isArduinoSpace c := by
  unfold trimList
  rw [List.rdropWhile_eq_nil_iff]
  constructor
  · intro h c hc
    rw [← List.takeWhile_append_dropWhile (p := isArduinoSpace) (l := u)] at hc
    rcases List.mem_append.mp hc with h1 | h1
    · exact List.mem_takeWhile_imp h1
    · exact h c h1
  · intro h c hc
    exact h c ((List.dropWhile_suffix isArduinoSpace).subset hc)

/-- A string trims to the empty string exactly when it is all whitespace. -/
theorem trim_eq_empty_iff (t : String) :
    trim t = "" ↔ ∀ c ∈ t.data, isArduinoSpace c := by
  rw [String.ext_iff]
  exact trimList_eq_nil_iff t.data

/-- Trimming a line `LOC <t>` where `t` is all whitespace yields the bare
word `LOC`, which the prefix test then rejects. -/
theorem trim_loc_line_all {t : String} (h : ∀ c ∈ t.data, isArduinoSpace c) :
    trim ("LOC " ++ t) = "LOC" := by
  apply String.ext
  show trimList (("LOC " ++ t).data) = "LOC".data
  rw [String.data_append]
  show trimList ('L' :: 'O' :: 'C' :: ' ' :: t.data) = "LOC".data
  have hSp : ∀ c ∈ (' ' :: t.data), isArduinoSpace c := by
    intro c hc
    rcases List.mem_cons.mp hc with rfl | hc
    · decide
    · exact h c hc
  have e1 : List.rdropWhile isArduinoSpace ('C' :: ' ' :: t.data) = ['C'] := by
    rw [rdropWhile_cons_all hSp]
    simp [show isArduinoSpace 'C' = false from by decide]
  have e2 : List.rdropWhile isArduinoSpace ('O' :: 'C' :: ' ' :: t.data) = ['O', 'C'] := by
    rw [rdropWhile_cons_ex (fun hall =>
      absurd (hall 'C' (List.mem_cons_self _ _)) (by decide)) 'O', e1]
  have e3 : List.rdropWhile isArduinoSpace ('L' :: 'O' :: 'C' :: ' ' :: t.data)
      = ['L', 'O', 'C'] := by
    rw [rdropWhile_cons_ex (fun hall =>
      absurd (hall 'C' (List.mem_cons_of_mem _ (List.mem_cons_self _ _))) (by decide)) 'L', e2]
  unfold trimList
  rw [List.dropWhile_cons, if_neg (by decide), e3]

/-- Trimming a line `LOC <t>` where `t` has a non-whitespace character:
the leading `LOC ` survives and only the trailing whitespace of `t` goes. -/
theorem trim_loc_line_ex {t : String} (h : ¬ ∀ c ∈ t.data, isArduinoSpace c) :
    trim ("LOC " ++ t)
      = ⟨"LOC ".data ++ List.rdropWhile isArduinoSpace t.data⟩ := by
  apply String.ext
  show trimList (("LOC " ++ t).data) = "LOC ".data ++ List.rdropWhile isArduinoSpace t.data
  rw [String.data_append]
  show trimList ('L' :: 'O' :: 'C' :: ' ' :: t.data)
      = "LOC ".data ++ List.rdropWhile isArduinoSpace t.data
  have h1 : ¬ ∀ c ∈ (' ' :: t.data), isArduinoSpace c :=
    fun hall => h (fun c hc => hall c (List.mem_cons_of_mem _ hc))
  have h2 : ¬ ∀ c ∈ ('C' :: ' ' :: t.data), isArduinoSpace c :=
    fun hall => h1 (fun c hc => hall c (List.mem_cons_of_mem _ hc))
  have h3 : ¬ ∀ c ∈ ('O' :: 'C' :: ' ' :: t.data), isArduinoSpace c :=
    fun hall => h2 (fun c hc => hall c (List.mem_cons_of_mem _ hc))
  unfold trimList
  rw [List.dropWhile_cons, if_neg (by decide),
    rdropWhile_cons_ex h3 'L', rdropWhile_cons_ex h2 'O',
    rdropWhile_cons_ex h1 'C', rdropWhile_cons_ex h ' ']
  rfl

/-- C2 amended: `LOC t` stores `t` with surrounding whitespace removed and
acknowledges with `[OK] LOC SET` whenever `t` has any non-whitespace
content; when `t` is whitespace-only the whole line trims to the bare word
`LOC`, which is not recognized, so nothing is stored and nothing is
emitted — the location is never set to the empty string by a LOC line. -/
theorem loc_sets_trimmed_location (t loc : String) (env : ScanEnv) :
    (trim t ≠ "" →
      processLine loc ("LOC " ++ t) env = (trim t, ["[OK] LOC SET"]))
    ∧ (trim t = "" →
      processLine loc ("LOC " ++ t) env = (loc, [])) := by
  constructor
  · intro hne
    have hu : ¬ ∀ c ∈ t.data, isArduinoSpace c :=
      fun hall => hne ((trim_eq_empty_iff t).mpr hall)
    set rt := List.rdropWhile isArduinoSpace t.data with hrt
    have hcmd : trim ("LOC " ++ t) = ⟨'L' :: 'O' :: 'C' :: ' ' :: rt⟩ := trim_loc_line_ex hu
    have hsw : startsWithLOC ⟨'L' :: 'O' :: 'C' :: ' ' :: rt⟩ = true := by
      unfold startsWithLOC
      rw [decide_eq_true_eq]
      rfl
    have hns : (⟨'L' :: 'O' :: 'C' :: ' ' :: rt⟩ : String) ≠ "SCAN" := by
      intro hEq
      have hd := congrArg String.data hEq
      rw [show "SCAN".data = 'S' :: ['C', 'A', 'N'] from rfl] at hd
      injection hd with hh _
      exact absurd hh (by decide)
    have hsub : substring4 ⟨'L' :: 'O' :: 'C' :: ' ' :: rt⟩ = ⟨rt⟩ := rfl
    have htr : trim ⟨rt⟩ = trim t := by
      apply String.ext
      show trimList rt = trimList t.data
      rw [hrt]
      exact trimList_rdropWhile t.data
    simp [processLine, hcmd, hsw, hns, hsub, htr]
  · intro he
    have hcmd := trim_loc_line_all ((trim_eq_empty_iff t).mp he)
    simp [processLine, hcmd, show startsWithLOC "LOC" = false from by decide,
      show ("LOC" : String) ≠ "SCAN" from by decide]

/-- Witness for the amended C2: `LOC  Tower B ` stores `Tower B` and
acknowledges. -/
theorem loc_sets_trimmed_location_witness :
    trim " Tower B " ≠ "" ∧
    processLine "X" ("LOC " ++ " Tower B ") envTwo
      = ("Tower B", ["[OK] LOC SET"]) := by
  refine ⟨by decide, ?_⟩
  rw [(loc_sets_trimmed_location " Tower B " "X" envTwo).1 (by decide)]
  decide

/-- C2 counterexample: the whitespace-only payload. The line `LOC   `
trims to `LOC`, is not recognized, and produces no output and no change —
it does not set the location to the empty string and does not emit the
acknowledgment, contrary to the claim. -/
theorem loc_whitespace_only_counterexample :
    processLine "X" "LOC   " envTwo = ("X", []) ∧
    processLine "X" "LOC   " envTwo ≠ ("", ["[OK] LOC SET"]) :=
  ⟨by decide, by decide⟩

/-- C8 counterexample: the line `SCAN\n` is split so that `SC` is available
at time 0 and `AN\n` only arrives at time 2000, beyond the 1000 ms serial
timeout. The first poll consumes the unterminated prefix `SC` and
processes it as a (silently dropped) command instead of retaining it; the
next poll reads `AN`; the command `SCAN`, whose processing would produce a
scan report, is never seen. -/
theorem partial_line_timeout_counterexample :
    pollOnce envTwo ⟨"X", 0, [(0, 'S'), (0, 'C'), (2000, 'A'), (2000, 'N'), (2000, '\n')]⟩
      = (⟨"X", 1000, [(2000, 'A'), (2000, 'N'), (2000, '\n')]⟩, []) ∧
    pollOnce envTwo ⟨"X", 2000, [(2000, 'A'), (2000, 'N'), (2000, '\n')]⟩
      = (⟨"X", 2000, []⟩, []) ∧
    processLine "X" "SCAN" envTwo ≠ ("X", []) :=
  ⟨by decide, by decide, by decide⟩

/-- A prompt line (every byte within the timeout window of its
predecessor, terminator included) is consumed whole in one read. -/
theorem readStringUntilAux_prompt (pre : List (Nat × Char)) :
    ∀ (acc : List Char) (now tn : Nat) (rest : List (Nat × Char)),
      chainOk now (pre ++ [(tn, '\n')]) = true →
      (∀ e ∈ pre, e.2 ≠ '\n') →
      ∃ t', readStringUntilAux acc now (pre ++ (tn, '\n') :: rest)
        = (acc ++ pre.map Prod.snd, rest, t') := by
  induction pre with
  | nil =>
    intro acc now tn rest hc _
    simp only [chainOk, Bool.and_true, decide_eq_true_eq, List.nil_append] at hc ⊢
    exact ⟨max now tn, by simp [readStringUntilAux, hc]⟩
  | cons e pre ih =>
    obtain ⟨t, c⟩ := e
    intro acc now tn rest hc hn
    simp only [chainOk, List.cons_append, Bool.and_eq_true, decide_eq_true_eq] at hc
    have hcne : c ≠ '\n' := hn (t, c) (List.mem_cons_self _ _)
    obtain ⟨t', ht'⟩ := ih (acc ++ [c]) (max now t) tn rest hc.2
      (fun e he => hn e (List.mem_cons_of_mem _ he))
    refine ⟨t', ?_⟩
    rw [List.cons_append]
    show readStringUntilAux acc now ((t, c) :: (pre ++ (tn, '\n') :: rest)) = _
    rw [readStringUntilAux, if_pos hc.1, if_neg hcne, ht']
    simp

/-- C8 amended: unreceived bytes are retained in the stream (a poll with
no available byte reads and changes nothing), and a line whose bytes,
terminator included, all arrive within the 1000 ms per-byte serial timeout
is delivered whole; but once a read has begun, a gap longer than the
timeout before the terminator makes `readStringUntil` return the partial
line at once, and the loop processes it as a command instead of retaining
it. -/
theorem line_buffering_timeout_behavior :
    (∀ (env : ScanEnv) (st : DeviceState),
      available st.now st.events = false → pollOnce env st = (st, []))
    ∧ (∀ (now : Nat) (pre : List (Nat × Char)) (tn : Nat) (rest : List (Nat × Char)),
        chainOk now (pre ++ [(tn, '\n')]) = true →
        (∀ e ∈ pre, e.2 ≠ '\n') →
        ∃ t', readStringUntilNL now (pre ++ (tn, '\n') :: rest)
          = (pre.map Prod.snd, rest, t'))
    ∧ (∀ (acc : List Char) (now t : Nat) (c : Char) (rest : List (Nat × Char)),
        now + serialTimeout < t →
        readStringUntilAux acc now ((t, c) :: rest)
          = (acc, (t, c) :: rest, now + serialTimeout)) := by
  refine ⟨?_, ?_, ?_⟩
  · intro env st h
    simp [pollOnce, h]
  · intro now pre tn rest hc hn
    obtain ⟨t', ht'⟩ := readStringUntilAux_prompt pre [] now tn rest hc hn
    exact ⟨t', by simpa [readStringUntilNL] using ht'⟩
  · intro acc now t c rest h
    rw [readStringUntilAux, if_neg (Nat.not_le.mpr h)]

/-- Witness for the amended C8: a byte still in flight is retained; the
prompt line `SCAN\n` is read whole; a 2000 ms gap times out at 1000 ms. -/
theorem line_buffering_timeout_behavior_witness :
    pollOnce envTwo ⟨"X", 0, [(5, 'A')]⟩ = (⟨"X", 0, [(5, 'A')]⟩, []) ∧
    (∃ t', readStringUntilNL 0 ([(0, 'S'), (0, 'C'), (0, 'A'), (0, 'N')] ++ (0, '\n') :: [])
      = (['S', 'C', 'A', 'N'], [], t')) ∧
    readStringUntilAux [] 0 [(2000, 'A')] = ([], [(2000, 'A')], 0 + serialTimeout) := by
  obtain ⟨h1, h2, h3⟩ := line_buffering_timeout_behavior
  exact ⟨h1 envTwo ⟨"X", 0, [(5, 'A')]⟩ (by decide),
    h2 0 [(0, 'S'), (0, 'C'), (0, 'A'), (0, 'N')] 0 [] (by decide) (by decide),
    h3 [] 0 2000 'A' [] (by decide)⟩

end ProjetWifi
